import Mathlib

/-!
Verification of the CodeClash (Python-Duel) matchmaking, battle-room and
sandbox logic.  The definitions below are a shallow embedding of the Python
code embedded in the repository documents:

* `backend/src/services/redis_matchmaking.py` (SCALE_TO_5000.md): the
  `RedisMatchmakingQueue` class — `add_to_queue`, `remove_from_queue`,
  `find_best_match`, `attempt_matchmaking`, `update_test_results`,
  `get_queue_size`, `get_battle_room`.
* `backend/src/api/main.py` (README.md, INTERVIEW_DEFENSE_GUIDE.md): the
  Socket.io handlers `disconnect`, `submit_code`, `sync_code`.
* `backend/src/sandbox/sandbox_runner.py` (INTERVIEW_DEFENSE_GUIDE.md):
  `check_forbidden_imports_ast`, `execute_code`.
* `backend/src/sandbox/java_executor.py` (CONTRIBUTING.md):
  `check_forbidden_imports_java`, `execute_java_code`.

Redis is modelled by explicit state passing: the sorted set `queue:global`
is a list of (member, score) pairs kept in (score, member) order, and the
string keys `player:*`, `room:*`, `player_room:*` are association lists.
Timestamps are naturals supplied by the caller (`datetime.utcnow()` at each
call site), fresh uuids are parameters.
-/

/-- Association-list lookup, modelling `redis.get key`. -/
def getKey {α : Type} (l : List (String × α)) (k : String) : Option α :=
  (l.find? (fun p => p.1 == k)).map (fun p => p.2)

/-- Association-list update, modelling `redis.set key v`. -/
def setKey {α : Type} (l : List (String × α)) (k : String) (v : α) :
    List (String × α) :=
  (k, v) :: l.filter (fun p => p.1 != k)

/-- Association-list deletion, modelling `redis.delete key`. -/
def delKey {α : Type} (l : List (String × α)) (k : String) :
    List (String × α) :=
  l.filter (fun p => p.1 != k)

/-- Order used by the Redis sorted set: by score, ties by member name. -/
def zsetBefore (a b : String × Nat) : Bool :=
  a.2 < b.2 || (a.2 == b.2 && (compare a.1 b.1 != Ordering.gt))

/-- Ordered insertion into the sorted-set representation. -/
def zsetInsert (x : String × Nat) : List (String × Nat) → List (String × Nat)
  | [] => [x]
  | y :: ys => if zsetBefore x y then x :: y :: ys else y :: zsetInsert x ys

/-- `ZREM`: remove a member from the sorted set. -/
def zrem (q : List (String × Nat)) (member : String) : List (String × Nat) :=
  q.filter (fun p => p.1 != member)

/-- `ZADD`: add a member with a score; an existing member's score is
updated (the member is re-positioned), the member set gains no duplicate. -/
def zadd (q : List (String × Nat)) (member : String) (score : Nat) :
    List (String × Nat) :=
  zsetInsert (member, score) (zrem q member)

/-- `ZCARD`: cardinality of the sorted set. -/
def zcard (q : List (String × Nat)) : Nat := q.length

/-- `ZRANGE key 0 -1`: all members in score order. -/
def zrangeAll (q : List (String × Nat)) : List String :=
  q.map (fun p => p.1)

/-- Score of a member in the sorted set, if present (`ZSCORE`). -/
def zscore (q : List (String × Nat)) (member : String) : Option Nat :=
  (q.find? (fun p => p.1 == member)).map (fun p => p.2)

/-- `Player` dataclass of `redis_matchmaking.py`. -/
structure Player where
  user_id : String
  username : String
  elo_rating : Int := 1000
  queue_time : Nat := 0
  socket_id : String := ""
deriving Repr, DecidableEq

/-- The `battle_data` dict built by `attempt_matchmaking` and mutated by
`update_test_results`. -/
structure BattleData where
  room_id : String
  player1 : Player
  player2 : Player
  challenge_id : String
  status : String
  created_at : Nat
  player1_code : String
  player2_code : String
  player1_tests : Nat
  player2_tests : Nat
  total_tests : Nat
  winner_id : Option String
deriving Repr, DecidableEq

/-- The Redis keyspace owned by `RedisMatchmakingQueue`: the sorted set
`queue:global` and the `player:*`, `room:*`, `player_room:*` keys. -/
structure RedisState where
  queue : List (String × Nat)
  players : List (String × Player)
  rooms : List (String × BattleData)
  playerRoom : List (String × String)
deriving Repr, DecidableEq

/-- Result dict of `add_to_queue`: a success flag (the failure branch is
only reached on a Redis exception, which the embedding does not model). -/
structure AddResult where
  success : Bool
  user_id : String
deriving Repr, DecidableEq

/-- `RedisMatchmakingQueue.add_to_queue`: builds a `Player` stamped with
the current time, stores it under `player:{user_id}` and `ZADD`s the id to
the queue with the timestamp as score.  There is no already-queued check;
the happy path always returns success. -/
def add_to_queue (s : RedisState) (now : Nat) (user_id username : String)
    (elo_rating : Int := 1000) (socket_id : String := "") :
    AddResult × RedisState :=
  let player : Player :=
    { user_id := user_id, username := username, elo_rating := elo_rating,
      queue_time := now, socket_id := socket_id }
  let s' : RedisState :=
    { s with players := setKey s.players user_id player,
             queue := zadd s.queue user_id now }
  ({ success := true, user_id := user_id }, s')

/-- `RedisMatchmakingQueue.remove_from_queue`: `ZREM`s the id and deletes
the `player:{user_id}` key. -/
def remove_from_queue (s : RedisState) (user_id : String) :
    Bool × RedisState :=
  (true,
    { s with queue := zrem s.queue user_id,
             players := delKey s.players user_id })

/-- `RedisMatchmakingQueue.get_queue_size`. -/
def get_queue_size (s : RedisState) : Nat := zcard s.queue

/-- `RedisMatchmakingQueue.get_battle_room`. -/
def get_battle_room (s : RedisState) (room_id : String) : Option BattleData :=
  getKey s.rooms room_id

/-- `abs(player_elo - candidate.elo_rating)` as a natural number. -/
def eloDiff (a b : Int) : Nat := (a - b).natAbs

/-- One iteration of the `for candidate_id in queue_user_ids` loop of
`find_best_match`.  The accumulator carries `best_match` and
`closest_diff` (`none` standing for `float('inf')`). -/
def fbmStep (players : List (String × Player)) (player_id : String)
    (player_elo : Int) (elo_tolerance : Nat)
    (acc : Option String × Option Nat) (candidate_id : String) :
    Option String × Option Nat :=
  if candidate_id == player_id then acc
  else
    match getKey players candidate_id with
    | none => acc
    | some candidate =>
      let elo_diff := eloDiff player_elo candidate.elo_rating
      let closer := match acc.2 with
        | none => true
        | some closest_diff => elo_diff < closest_diff
      if closer && elo_diff ≤ elo_tolerance then
        (some candidate_id, some elo_diff)
      else acc

/-- `RedisMatchmakingQueue.find_best_match`: looks up the player's ELO,
scans every queued id in `ZRANGE` order and keeps the candidate with the
strictly smallest ELO difference within the tolerance (strict `<` means
the earliest-queued of equally close candidates wins). -/
def find_best_match (s : RedisState) (player_id : String)
    (elo_tolerance : Nat := 200) : Option String :=
  match getKey s.players player_id with
  | none => none
  | some player =>
    let queue_user_ids := zrangeAll s.queue
    (queue_user_ids.foldl
      (fbmStep s.players player_id player.elo_rating elo_tolerance)
      (none, none)).1

/-- `RedisMatchmakingQueue.attempt_matchmaking`: with fewer than two
queued players returns `None`; otherwise takes the longest-waiting id
(`ZRANGE 0 0`), searches an opponent with `find_best_match`, and on
success atomically `ZREM`s both ids, stores the battle room (created with
status `"in_progress"`, empty code, zero counts and no winner) and the
player-to-room mappings.  `new_room_id` stands for the fresh
`room_(uuid4)` and `now` for `datetime.utcnow()`. -/
def attempt_matchmaking (s : RedisState) (challenge_id : String)
    (new_room_id : String) (now : Nat) : Option BattleData × RedisState :=
  if get_queue_size s < 2 then (none, s)
  else
    match (zrangeAll s.queue).head? with
    | none => (none, s)
    | some player1_id =>
      match find_best_match s player1_id with
      | none => (none, s)
      | some player2_id =>
        match getKey s.players player1_id, getKey s.players player2_id with
        | some player1_data, some player2_data =>
          let battle_data : BattleData :=
            { room_id := new_room_id,
              player1 := player1_data,
              player2 := player2_data,
              challenge_id := challenge_id,
              status := "in_progress",
              created_at := now,
              player1_code := "",
              player2_code := "",
              player1_tests := 0,
              player2_tests := 0,
              total_tests := 0,
              winner_id := none }
          let s' : RedisState :=
            { s with
              queue := zrem (zrem s.queue player1_id) player2_id,
              rooms := setKey s.rooms new_room_id battle_data,
              playerRoom :=
                setKey (setKey s.playerRoom player1_id new_room_id)
                  player2_id new_room_id }
          (some battle_data, s')
        | _, _ => (none, s)

/-- Body of `update_test_results` after the room load: overwrites
`total_tests`, overwrites the submitter's side of the counts
(`player1_tests` when the id matches player1, otherwise `player2_tests`),
and when `tests_passed == total_tests` records the submitter as
`winner_id` and sets the status to `"completed"`. -/
def applyTestResults (battle_data : BattleData) (player_id : String)
    (tests_passed total_tests : Nat) : BattleData :=
  let b1 := { battle_data with total_tests := total_tests }
  let b2 :=
    if player_id == b1.player1.user_id then
      { b1 with player1_tests := tests_passed }
    else
      { b1 with player2_tests := tests_passed }
  if tests_passed == total_tests then
    { b2 with winner_id := some player_id, status := "completed" }
  else b2

/-- `RedisMatchmakingQueue.update_test_results`: loads the room (missing
room returns `False`), applies `applyTestResults` and stores the updated
room back.  No status is ever checked before applying the update. -/
def update_test_results (s : RedisState) (room_id player_id : String)
    (tests_passed total_tests : Nat) : Bool × RedisState :=
  match get_battle_room s room_id with
  | none => (false, s)
  | some battle_data =>
    let b := applyTestResults battle_data player_id tests_passed total_tests
    (true, { s with rooms := setKey s.rooms room_id b })

/-- Overwrite the submitter's side of the stored code, following the
player1/player2 selection used by `update_test_results`. -/
def setSubmitterCode (battle_data : BattleData) (user_id code : String) :
    BattleData :=
  if user_id == battle_data.player1.user_id then
    { battle_data with player1_code := code }
  else
    { battle_data with player2_code := code }

/-- `update_player_code`.  Modelled from the spec: the body of
`MatchmakingQueue.update_player_code` (called by `sync_code` and
`submit_code` in `main.py`) is not among the repository sources; spec
4.5 says code-sync updates "overwrite that participant's stored code, no
state change", so the submitter's side of the stored code is overwritten
and the room stored back. -/
def update_player_code (s : RedisState) (room_id user_id code : String) :
    RedisState :=
  match get_battle_room s room_id with
  | none => s
  | some battle_data =>
    { s with rooms :=
        setKey s.rooms room_id (setSubmitterCode battle_data user_id code) }

/-- Value dict of the `connected_users` registry in `main.py`. -/
structure ConnInfo where
  socket_id : String
  username : String
  elo_rating : Int
deriving Repr, DecidableEq

/-- Module-level state of `main.py`: the Redis matchmaking state plus the
`connected_users` and `socket_to_user` dicts and the
`last_sync_timestamps` dedup table of `sync_code`. -/
structure ServerState where
  redis : RedisState
  connected_users : List (String × ConnInfo)
  socket_to_user : List (String × String)
  last_sync : List (String × Int)
deriving Repr, DecidableEq

/-- The `disconnect` Socket.io handler of `main.py`: looks the user up by
socket id; when found, removes them from the matchmaking queue and drops
the `connected_users` and `socket_to_user` entries.  Battle rooms and the
player-to-room mapping are not touched. -/
def disconnect (s : ServerState) (sid : String) : ServerState :=
  match getKey s.socket_to_user sid with
  | none => s
  | some user_id =>
    let redis' := (remove_from_queue s.redis user_id).2
    { s with redis := redis',
             connected_users := delKey s.connected_users user_id,
             socket_to_user := delKey s.socket_to_user sid }

/-- The broadcast payload of the `opponent_code_update` event emitted by
`sync_code`. -/
structure CodeUpdate where
  code : String
  user_id : String
  timestamp : Int
deriving Repr, DecidableEq

/-- The `sync_code` Socket.io handler of `main.py` (deduplicating
version): loads the room (missing room: no effect, no broadcast); drops
the event when the same room/user key synced less than 200 ms ago
(`timestamp > 0 and timestamp - last_ts < 200`); otherwise records the
timestamp, overwrites the player's stored code via `update_player_code`
and broadcasts the code to the opponent. -/
def sync_code (s : ServerState) (user_id room_id code : String)
    (timestamp : Int) : ServerState × Option CodeUpdate :=
  match get_battle_room s.redis room_id with
  | none => (s, none)
  | some _ =>
    let key := room_id ++ ":" ++ user_id
    let last_ts := (getKey s.last_sync key).getD 0
    if timestamp > 0 ∧ timestamp - last_ts < 200 then (s, none)
    else
      let s' : ServerState :=
        { s with last_sync := setKey s.last_sync key timestamp,
                 redis := update_player_code s.redis room_id user_id code }
      (s', some { code := code, user_id := user_id, timestamp := timestamp })

/-- What the opponent's editor shows after an optional
`opponent_code_update` broadcast: `setOpponentCode(data.code)` in
`App.jsx`, i.e. the latest broadcast code. -/
def applyCodeUpdate (view : String) (b : Option CodeUpdate) : String :=
  match b with
  | none => view
  | some u => u.code

/-- Winner selection of the `battle_complete` block in `submit_code`
(`main.py`): `winner = battle_room.player1 if user_id ==
battle_room.player1.user_id else battle_room.player2`. -/
def submitWinner (battle_room : BattleData) (user_id : String) : Player :=
  if user_id == battle_room.player1.user_id then battle_room.player1
  else battle_room.player2

mutual
/-- The fragment of the Python expression syntax inspected by
`check_forbidden_imports_ast`: names, string literals, attribute access
and calls.  Argument lists are a mutually inductive list so that the
walker is structurally recursive. -/
inductive PyExpr where
  | name (id : String)
  | strLit (s : String)
  | attrAccess (value : PyExpr) (attr : String)
  | call (func : PyExpr) (args : PyExprList)
/-- A list of expressions (call arguments). -/
inductive PyExprList where
  | nil
  | cons (head : PyExpr) (tail : PyExprList)
end

/-- Statement nodes inspected by `check_forbidden_imports_ast`: `import a
as b, ...` (each alias keeps its module name and optional as-name), `from
m import ...`, and expression statements. -/
inductive PyStmt where
  | stmtImport (names : List (String × Option String))
  | stmtImportFrom (module : Option String)
  | stmtExpr (value : PyExpr)

/-- The `FORBIDDEN_IMPORTS` set of `check_forbidden_imports_ast`. -/
def FORBIDDEN_IMPORTS : List String :=
  ["os", "sys", "subprocess", "shutil", "socket", "requests",
   "urllib", "http", "ftplib", "smtplib", "ssl", "threading",
   "multiprocessing", "asyncio", "__import__", "importlib"]

/-- Characters before the first `'.'`. -/
def charsBeforeDot : List Char → List Char
  | [] => []
  | c :: cs => if c == '.' then [] else c :: charsBeforeDot cs

/-- `alias.name.split('.')[0]`: the top-level module of a dotted name. -/
def topLevelModule (name : String) : String :=
  String.mk (charsBeforeDot name.data)

/-- The tuple of dangerous direct callees of `check_forbidden_imports_ast`:
a `Call` whose `func` is a `Name` with one of these ids is blocked. -/
def dangerousCallNames : List String :=
  ["__import__", "eval", "exec", "compile", "open"]

/-- The tuple of dangerous attribute callees: a `Call` whose `func` is an
`Attribute` with one of these attrs is blocked. -/
def dangerousCallAttrs : List String :=
  ["__import__", "__loader__"]

/-- Whether a single `Call` node is flagged by the call branch of
`check_forbidden_imports_ast`: only the immediate `node.func` shape is
inspected — a `Name` against `dangerousCallNames`, an `Attribute` against
`dangerousCallAttrs`; any other callee shape (for example another call,
such as `getattr(...)(...)`) is not flagged. -/
def callNodeFlagged : PyExpr → Bool
  | PyExpr.call (PyExpr.name id) _ => dangerousCallNames.contains id
  | PyExpr.call (PyExpr.attrAccess _ attr) _ => dangerousCallAttrs.contains attr
  | _ => false

mutual
/-- `ast.walk` over an expression: does any node (the node itself or a
descendant) trip the call branch of the checker? -/
def exprFlagged : PyExpr → Bool
  | PyExpr.name _ => false
  | PyExpr.strLit _ => false
  | PyExpr.attrAccess value _ => exprFlagged value
  | PyExpr.call func args =>
    callNodeFlagged (PyExpr.call func args) || exprFlagged func ||
      exprListFlagged args
/-- The walk over an argument list. -/
def exprListFlagged : PyExprList → Bool
  | PyExprList.nil => false
  | PyExprList.cons head tail => exprFlagged head || exprListFlagged tail
end

/-- Whether a statement node (or a node below it) is flagged: `Import`
aliases are checked by top-level module name (the as-name is ignored),
`ImportFrom` by its module (`''` when absent), expressions by the walk. -/
def stmtFlagged : PyStmt → Bool
  | PyStmt.stmtImport names =>
    names.any (fun al => FORBIDDEN_IMPORTS.contains (topLevelModule al.1))
  | PyStmt.stmtImportFrom module =>
    FORBIDDEN_IMPORTS.contains (topLevelModule (module.getD ""))
  | PyStmt.stmtExpr value => exprFlagged value

/-- `check_forbidden_imports_ast` (sandbox_runner.py, AST-hardened
version): `none` stands for a `SyntaxError` from `ast.parse`, which is a
rejection (fails closed); otherwise the tree is walked and the code is
safe iff no node is flagged.  The Python returns a `(is_safe, message)`
pair; the diagnostic string is dropped by the embedding. -/
def check_forbidden_imports_ast : Option (List PyStmt) → Bool
  | none => false
  | some tree => !(tree.any stmtFlagged)

/-- `{'input': ..., 'expected': ...}` dict handed to the executors by
`submit_code`. -/
structure TestCaseData where
  input : String
  expected : String
deriving Repr, DecidableEq

/-- `TestCase` dataclass of `puzzle_library.py`. -/
structure ChallengeTestCase where
  input_data : String
  expected_output : String
  description : String
deriving Repr, DecidableEq

/-- `Challenge` dataclass of `puzzle_library.py`. -/
structure Challenge where
  id : String
  name : String
  description : String
  difficulty : String
  time_limit : Nat
  function_signature : String
  test_cases : List ChallengeTestCase
deriving Repr, DecidableEq

/-- The test-case preparation of `submit_code` (`main.py`): one
input/expected dict per declared test case of the challenge. -/
def prepareTestCases (challenge : Challenge) : List TestCaseData :=
  challenge.test_cases.map
    (fun tc => { input := tc.input_data, expected := tc.expected_output })

/-- `ExecutionResult` of `sandbox_runner.py` (the float
`execution_time` is dropped by the embedding). -/
structure PyExecutionResult where
  success : Bool
  passed_tests : Nat
  total_tests : Nat
  test_results : List Bool
  output : String
  error : String
deriving Repr, DecidableEq

/-- Outcome of the sandboxed subprocess run inside `execute_code`.
Modelled from the spec: the executing body of `execute_code` after the
validator gate ("... rest of execute_code logic remains the same") is not
among the repository sources; spec 4.2 describes a wall-clock timeout, a
malformed-output parse failure, and otherwise a harness that iterates the
test cases. -/
inductive SandboxRun where
  | ran
  | timedOut
  | malformedOutput
deriving Repr, DecidableEq

/-- `execute_code` (sandbox_runner.py): the AST validator gate is from
the source (rejection returns zero passed tests and the declared total,
with no execution); the post-gate body is modelled from the spec: the
harness invokes the entry point once per test case (`runTest` is the
oracle for one test), so the per-test records are `test_cases.map
runTest` and the passed count is the number of `true` records; timeout
and malformed output report zero passed tests. -/
def execute_code (parsed_code : Option (List PyStmt))
    (test_cases : List TestCaseData) (function_name : String)
    (run : SandboxRun) (runTest : TestCaseData → Bool) : PyExecutionResult :=
  if !(check_forbidden_imports_ast parsed_code) then
    { success := false, passed_tests := 0, total_tests := test_cases.length,
      test_results := [], output := "",
      error := "Forbidden import detected" }
  else
    match run with
    | SandboxRun.timedOut =>
      { success := false, passed_tests := 0, total_tests := test_cases.length,
        test_results := [], output := "",
        error := "Timeout" }
    | SandboxRun.malformedOutput =>
      { success := false, passed_tests := 0, total_tests := test_cases.length,
        test_results := [], output := "",
        error := "Malformed output" }
    | SandboxRun.ran =>
      let results := test_cases.map runTest
      { success := true, passed_tests := results.count true,
        total_tests := test_cases.length, test_results := results,
        output := "", error := "" }

/-- Whether `sub` is an initial segment of `l`. -/
def leadsWith : List Char → List Char → Bool
  | [], _ => true
  | _ :: _, [] => false
  | a :: as, b :: bs => a == b && leadsWith as bs

/-- Whether `sub` occurs somewhere in `l`. -/
def charsContain (sub : List Char) : List Char → Bool
  | [] => sub.isEmpty
  | c :: cs => leadsWith sub (c :: cs) || charsContain sub cs

/-- Python's substring test `sub in s`. -/
def containsSubstr (s sub : String) : Bool :=
  charsContain sub.data s.data

/-- The `FORBIDDEN` set of `check_forbidden_imports_java`. -/
def FORBIDDEN_JAVA : List String :=
  ["java.lang.Runtime", "java.lang.ProcessBuilder", "java.io.File",
   "java.nio.file", "java.net.Socket", "java.sql"]

/-- `check_forbidden_imports_java` (java_executor.py): substring scan of
the code against the forbidden list; the Python `(is_safe, message)`
pair's diagnostic string is dropped by the embedding. -/
def check_forbidden_imports_java (code : String) : Bool :=
  !(FORBIDDEN_JAVA.any (fun forbidden => containsSubstr code forbidden))

/-- The result dict of `execute_java_code`. -/
structure JavaResult where
  success : Bool
  passed_tests : Nat
  total_tests : Nat
  error : String
deriving Repr, DecidableEq

/-- Outcome of the `javac`/`java` subprocess pair inside
`execute_java_code`: compilation failure, `subprocess.TimeoutExpired`
(the library kills the child before raising), completed run whose stdout
either parses as a `(passed, total)` JSON document or fails `json.loads`,
or any other raised exception. -/
inductive JavaRun where
  | compileFailed (stderr : String)
  | timedOut
  | ranOutput (parsed : Option (Nat × Nat))
  | otherFailure (msg : String)
deriving Repr, DecidableEq

/-- `execute_java_code` (java_executor.py): rejects forbidden imports
before anything is run; `TimeoutExpired` yields zero passed tests, the
declared total and the timeout message — the interrupted stdout is never
parsed; a JSON parse failure of the completed run's stdout lands in the
generic `except Exception` branch, again with zero passed tests. -/
def execute_java_code (user_code : String) (test_cases : List TestCaseData)
    (class_name : String) (timeout : Nat) (run : JavaRun) : JavaResult :=
  if !(check_forbidden_imports_java user_code) then
    { success := false, passed_tests := 0, total_tests := test_cases.length,
      error := "Forbidden import" }
  else
    match run with
    | JavaRun.compileFailed stderr =>
      { success := false, passed_tests := 0, total_tests := test_cases.length,
        error := "Compilation error: " ++ stderr }
    | JavaRun.timedOut =>
      { success := false, passed_tests := 0, total_tests := test_cases.length,
        error := "Timeout: execution exceeded " ++ toString timeout ++ "s" }
    | JavaRun.ranOutput none =>
      { success := false, passed_tests := 0, total_tests := test_cases.length,
        error := "Execution error: JSONDecodeError" }
    | JavaRun.ranOutput (some (passed, total)) =>
      { success := true, passed_tests := passed, total_tests := total,
        error := "" }
    | JavaRun.otherFailure msg =>
      { success := false, passed_tests := 0, total_tests := test_cases.length,
        error := "Execution error: " ++ msg }

/-- The ELO difference of a queued candidate to a given rating, when the
candidate's `player:*` record exists. -/
def candDiff (players : List (String × Player)) (elo : Int) (cid : String) :
    Option Nat :=
  (getKey players cid).map (fun c => eloDiff elo c.elo_rating)

/-- A valid candidate for `find_best_match`: distinct from the searching
player, with an existing player record, and with rating difference `d`
within the tolerance. -/
def ValidCand (players : List (String × Player)) (pid : String) (elo : Int)
    (tol : Nat) (cid : String) (d : Nat) : Prop :=
  cid ≠ pid ∧ candDiff players elo cid = some d ∧ d ≤ tol

/-- Loop invariant of the `find_best_match` fold over the already
processed prefix of the queue: either no valid candidate has been seen,
or the accumulator holds a valid candidate of minimal difference that is
the earliest among the equally close ones. -/
def AccInv (players : List (String × Player)) (pid : String) (elo : Int)
    (tol : Nat) (processed : List String) :
    Option String × Option Nat → Prop
  | (none, none) =>
    ∀ c d, c ∈ processed → ¬ ValidCand players pid elo tol c d
  | (some b, some d) =>
    ValidCand players pid elo tol b d ∧
    (∀ c dc, c ∈ processed → ValidCand players pid elo tol c dc → d ≤ dc) ∧
    ∃ pre post, processed = pre ++ b :: post ∧
      ∀ c dc, c ∈ pre → ValidCand players pid elo tol c dc → d < dc
  | _ => False

/-- The specification `find_best_match` is proved to satisfy: the
returned id is a valid candidate among the queued ids whose rating
difference is within tolerance and minimal, and every strictly earlier
queued candidate within tolerance is strictly farther. -/
def IsBestMatch (s : RedisState) (pid : String) (elo : Int) (tol : Nat)
    (b : String) : Prop :=
  ∃ d, ValidCand s.players pid elo tol b d ∧
    (∀ c dc, c ∈ zrangeAll s.queue → ValidCand s.players pid elo tol c dc →
      d ≤ dc) ∧
    ∃ pre post, zrangeAll s.queue = pre ++ b :: post ∧
      ∀ c dc, c ∈ pre → ValidCand s.players pid elo tol c dc → d < dc

/-- No queued candidate is within tolerance of the given rating. -/
def NoMatchWithin (s : RedisState) (pid : String) (elo : Int) (tol : Nat) :
    Prop :=
  ∀ c d, c ∈ zrangeAll s.queue → ¬ ValidCand s.players pid elo tol c d

/-- Example player, rating 1000, queued at time 0. -/
def alicePlayer : Player :=
  { user_id := "alice", username := "Alice", elo_rating := 1000,
    queue_time := 0, socket_id := "sock_a" }

/-- Example player, rating 1100, queued at time 10. -/
def bobPlayer : Player :=
  { user_id := "bob", username := "Bob", elo_rating := 1100,
    queue_time := 10, socket_id := "sock_b" }

/-- Example player, rating 1500, queued at time 20. -/
def carolPlayer : Player :=
  { user_id := "carol", username := "Carol", elo_rating := 1500,
    queue_time := 20, socket_id := "sock_c" }

/-- A state with alice alone in the queue. -/
def oneQueuedState : RedisState :=
  { queue := [("alice", 0)], players := [("alice", alicePlayer)],
    rooms := [], playerRoom := [] }

/-- A state with alice (1000) and bob (1100) queued in that order. -/
def twoQueuedState : RedisState :=
  { queue := [("alice", 0), ("bob", 10)],
    players := [("alice", alicePlayer), ("bob", bobPlayer)],
    rooms := [], playerRoom := [] }

/-- Scenario A of the spec: alice (1000), bob (1100) and carol (1500)
queued seconds apart in the same challenge queue. -/
def threeQueuedState : RedisState :=
  { queue := [("alice", 0), ("bob", 10), ("carol", 20)],
    players := [("alice", alicePlayer), ("bob", bobPlayer),
                ("carol", carolPlayer)],
    rooms := [], playerRoom := [] }

/-- A completed room: alice won with 5/5 against bob's 3/5. -/
def completedRoom : BattleData :=
  { room_id := "room_1", player1 := alicePlayer, player2 := bobPlayer,
    challenge_id := "palindrome", status := "completed",
    created_at := 0, player1_code := "", player2_code := "",
    player1_tests := 5, player2_tests := 3, total_tests := 5,
    winner_id := some "alice" }

/-- A state holding only the completed room. -/
def completedRoomState : RedisState :=
  { queue := [], players := [], rooms := [("room_1", completedRoom)],
    playerRoom := [] }

/-- An in-progress room between alice and bob with 5 declared tests. -/
def progressRoom : BattleData :=
  { room_id := "room_1", player1 := alicePlayer, player2 := bobPlayer,
    challenge_id := "palindrome", status := "in_progress",
    created_at := 0, player1_code := "", player2_code := "",
    player1_tests := 0, player2_tests := 0, total_tests := 5,
    winner_id := none }

/-- A state holding only the in-progress room. -/
def progressRoomState : RedisState :=
  { queue := [], players := [], rooms := [("room_1", progressRoom)],
    playerRoom := [] }

/-- A server state for the disconnect example: alice is connected on
socket `sock_a`, queued, and party to the in-progress room. -/
def connectedServerState : ServerState :=
  { redis :=
      { queue := [("alice", 0)], players := [("alice", alicePlayer)],
        rooms := [("room_1", progressRoom)],
        playerRoom := [("alice", "room_1"), ("bob", "room_1")] },
    connected_users :=
      [("alice", { socket_id := "sock_a", username := "Alice",
                   elo_rating := 1000 })],
    socket_to_user := [("sock_a", "alice")],
    last_sync := [] }

/-- A server state for the sync example: the in-progress room is active
and no sync has been recorded yet. -/
def syncServerState : ServerState :=
  { redis := progressRoomState,
    connected_users := [], socket_to_user := [], last_sync := [] }

/-- AST of `getattr(__builtins__, '__import__')('os')`: a reflective
attribute lookup reaching the dynamic-import builtin, then called. -/
def getattrImportProgram : List PyStmt :=
  [PyStmt.stmtExpr (PyExpr.call
    (PyExpr.call (PyExpr.name "getattr")
      (PyExprList.cons (PyExpr.name "__builtins__")
        (PyExprList.cons (PyExpr.strLit "__import__") PyExprList.nil)))
    (PyExprList.cons (PyExpr.strLit "os") PyExprList.nil))]

/-- AST of `import os`. -/
def importOsProgram : List PyStmt :=
  [PyStmt.stmtImport [("os", none)]]

/-- AST of `import os as o`. -/
def importOsAliasedProgram : List PyStmt :=
  [PyStmt.stmtImport [("os", some "o")]]

/-- AST of `__import__('os')`. -/
def dunderImportProgram : List PyStmt :=
  [PyStmt.stmtExpr (PyExpr.call (PyExpr.name "__import__")
    (PyExprList.cons (PyExpr.strLit "os") PyExprList.nil))]

/-- A five-test example challenge. -/
def palindromeChallenge : Challenge :=
  { id := "palindrome", name := "The Palindrome",
    description := "Check if a string reads the same both ways.",
    difficulty := "easy", time_limit := 120,
    function_signature := "def is_palindrome(s: str) -> bool:",
    test_cases :=
      [ { input_data := "radar", expected_output := "True",
          description := "classic" },
        { input_data := "hello", expected_output := "False",
          description := "not one" },
        { input_data := "a", expected_output := "True",
          description := "single" },
        { input_data := "", expected_output := "True",
          description := "empty" },
        { input_data := "ab ba", expected_output := "True",
          description := "spaces" } ] }

/-- The battle produced by `attempt_matchmaking` on `twoQueuedState`. -/
def demoBattle : BattleData :=
  { room_id := "room_9", player1 := alicePlayer, player2 := bobPlayer,
    challenge_id := "palindrome", status := "in_progress", created_at := 20,
    player1_code := "", player2_code := "", player1_tests := 0,
    player2_tests := 0, total_tests := 0, winner_id := none }

/-- The state after `attempt_matchmaking` on `twoQueuedState`. -/
def demoAfterState : RedisState :=
  (attempt_matchmaking twoQueuedState "palindrome" "room_9" 20).2

/-- A single one-test test-case list for the sandbox examples. -/
def demoTestCases : List TestCaseData :=
  [{ input := "radar", expected := "True" }]

theorem getKey_setKey_self {α : Type} (l : List (String × α)) (k : String)
    (v : α) : getKey (setKey l k v) k = some v := by
  simp [getKey, setKey]

theorem setKey_setKey {α : Type} (l : List (String × α)) (k : String)
    (v w : α) : setKey (setKey l k v) k w = setKey l k w := by
  simp [setKey, List.filter_filter]

theorem zsetInsert_length (x : String × Nat) (l : List (String × Nat)) :
    (zsetInsert x l).length = l.length + 1 := by
  induction l with
  | nil => rfl
  | cons y ys ih =>
    by_cases h : zsetBefore x y <;> simp [zsetInsert, h, ih]

theorem not_mem_zrangeAll_zrem (q : List (String × Nat)) (m : String) :
    m ∉ zrangeAll (zrem q m) := by
  induction q with
  | nil => simp [zrem, zrangeAll]
  | cons p ps ih =>
    by_cases h : p.1 = m
    · simpa [zrem, zrangeAll, h] using ih
    · simpa [zrem, zrangeAll, h, bne_iff_ne, Ne.symm h] using ih

theorem zrem_eq_self_of_not_mem (q : List (String × Nat)) (m : String)
    (h : m ∉ zrangeAll q) : zrem q m = q := by
  unfold zrem
  rw [List.filter_eq_self]
  intro a ha
  simp only [bne_iff_ne, ne_eq]
  intro hc
  exact h (by
    have := List.mem_map_of_mem (fun p : String × Nat => p.1) ha
    simpa [zrangeAll, hc] using this)

theorem zrem_length_of_mem_nodup (q : List (String × Nat)) (m : String)
    (hnd : (zrangeAll q).Nodup) (hm : m ∈ zrangeAll q) :
    (zrem q m).length + 1 = q.length := by
  induction q with
  | nil => simp [zrangeAll] at hm
  | cons p ps ih =>
    simp only [zrangeAll, List.map_cons, List.nodup_cons] at hnd
    rcases hnd with ⟨hp, hnd⟩
    by_cases h : p.1 = m
    · have hnotin : m ∉ zrangeAll ps := by simpa [zrangeAll, h] using hp
      have he : zrem ps m = ps := zrem_eq_self_of_not_mem ps m hnotin
      simp only [zrem, List.filter_cons]
      rw [if_neg (by simp [h])]
      simp only [zrem] at he
      simp [he]
    · have hm' : m ∈ zrangeAll ps := by
        rcases (by simpa [zrangeAll] using hm : m = p.1 ∨ _) with h1 | h2
        · exact absurd h1.symm h
        · simpa [zrangeAll] using h2
      have hlen := ih hnd hm'
      simp only [zrem, List.filter_cons]
      rw [if_pos (by simpa [bne_iff_ne] using h)]
      simp only [zrem] at hlen
      simp only [List.length_cons]
      omega

theorem zscore_zsetInsert_self (l : List (String × Nat)) (m : String)
    (n : Nat) (h : m ∉ zrangeAll l) :
    zscore (zsetInsert (m, n) l) m = some n := by
  induction l with
  | nil => simp [zsetInsert, zscore]
  | cons y ys ih =>
    simp only [zrangeAll, List.map_cons, List.mem_cons, not_or] at h
    by_cases hb : zsetBefore (m, n) y
    · simp [zsetInsert, hb, zscore]
    · have := ih (by simpa [zrangeAll] using h.2)
      simp [zsetInsert, hb, zscore, Ne.symm h.1] at this ⊢
      simpa [beq_iff_eq, Ne.symm h.1] using this

/-- C1: the claim fails on the code.  Enqueuing `alice`, who is already
queued with insertion-order key 0, reports success (not rejection) and
changes her insertion-order key to the new timestamp 5. -/
theorem C1_counterexample :
    (add_to_queue oneQueuedState 5 "alice" "Alice").1.success = true ∧
    zscore (add_to_queue oneQueuedState 5 "alice" "Alice").2.queue "alice" ≠
      zscore oneQueuedState.queue "alice" := by decide

/-- C1 (amended): `add_to_queue` on an already-queued identity leaves the
queue size unchanged (the sorted set cannot gain a duplicate member),
but it is not rejected: it reports success and resets the entry's
insertion-order key to the current timestamp. -/
theorem C1_enqueue_duplicate_not_rejected (s : RedisState) (now : Nat)
    (user_id username : String) (elo_rating : Int) (socket_id : String)
    (hmem : user_id ∈ zrangeAll s.queue)
    (hnd : (zrangeAll s.queue).Nodup) :
    (add_to_queue s now user_id username elo_rating socket_id).1.success =
      true ∧
    get_queue_size
        (add_to_queue s now user_id username elo_rating socket_id).2 =
      get_queue_size s ∧
    zscore (add_to_queue s now user_id username elo_rating socket_id).2.queue
        user_id = some now := by
  refine ⟨rfl, ?_, ?_⟩
  · simp only [add_to_queue, get_queue_size, zcard, zadd]
    rw [zsetInsert_length]
    exact zrem_length_of_mem_nodup s.queue user_id hnd hmem
  · simp only [add_to_queue, zadd]
    exact zscore_zsetInsert_self _ _ _ (not_mem_zrangeAll_zrem s.queue user_id)

/-- C1 witness: the amended statement at the concrete duplicate enqueue. -/
theorem C1_witness :
    (add_to_queue oneQueuedState 5 "alice" "Alice" 1000 "").1.success =
      true ∧
    get_queue_size (add_to_queue oneQueuedState 5 "alice" "Alice" 1000 "").2 =
      get_queue_size oneQueuedState ∧
    zscore (add_to_queue oneQueuedState 5 "alice" "Alice" 1000 "").2.queue
        "alice" = some 5 :=
  C1_enqueue_duplicate_not_rejected oneQueuedState 5 "alice" "Alice" 1000 ""
    (by decide) (by decide)

theorem update_test_results_some (s : RedisState) (rid pid : String)
    (p t : Nat) (b : BattleData) (hb : get_battle_room s rid = some b) :
    update_test_results s rid pid p t =
      (true, { s with rooms := setKey s.rooms rid (applyTestResults b pid p t) }) := by
  simp [update_test_results, hb]

theorem applyTestResults_total (b : BattleData) (pid : String) (p t : Nat) :
    (applyTestResults b pid p t).total_tests = t := by
  simp only [applyTestResults]
  split <;> split <;> rfl

theorem applyTestResults_winner_of_pass (b : BattleData) (pid : String)
    (p t : Nat) (h : p = t) :
    (applyTestResults b pid p t).winner_id = some pid ∧
    (applyTestResults b pid p t).status = "completed" := by
  subst h
  simp [applyTestResults]

theorem applyTestResults_frame_of_fail (b : BattleData) (pid : String)
    (p t : Nat) (h : p ≠ t) :
    (applyTestResults b pid p t).winner_id = b.winner_id ∧
    (applyTestResults b pid p t).status = b.status := by
  simp only [applyTestResults]
  rw [if_neg (show ¬ (p == t) = true by simpa using h)]
  constructor <;> (split <;> rfl)

theorem applyTestResults_player2_of_ne (b : BattleData) (pid : String)
    (p t : Nat) (h : pid ≠ b.player1.user_id) :
    (applyTestResults b pid p t).player2_tests = p := by
  simp only [applyTestResults]
  have hnot : ¬ (pid == b.player1.user_id) = true := by simpa using h
  by_cases hpt : (p == t) = true
  · rw [if_pos hpt, if_neg hnot]
  · rw [if_neg hpt, if_neg hnot]

/-- C2: the claim fails on the code.  The room is completed (winner
alice, counts 5/3 of 5); a further submission by bob passing 5/5 is not
rejected: `update_test_results` reports success and the stored room's
winner becomes bob and bob's count becomes 5. -/
theorem C2_counterexample :
    (update_test_results completedRoomState "room_1" "bob" 5 5).1 = true ∧
    (get_battle_room (update_test_results completedRoomState "room_1" "bob" 5 5).2
        "room_1").map (fun b => (b.winner_id, b.player2_tests)) =
      some (some "bob", 5) ∧
    completedRoom.status = "completed" ∧
    completedRoom.winner_id = some "alice" := by decide

/-- C2 (amended): `completed` is not terminal.  `update_test_results`
never checks the status: for any existing room, also a completed one, a
further submission is applied — the call reports success, the stored
room is the updated one (total and the submitter side's count
overwritten), and a full-pass submission overwrites the winner even
after completion. -/
theorem C2_completed_room_still_mutates (s : RedisState) (rid pid : String)
    (p t : Nat) (b : BattleData)
    (hb : get_battle_room s rid = some b)
    (hc : b.status = "completed") :
    (update_test_results s rid pid p t).1 = true ∧
    get_battle_room (update_test_results s rid pid p t).2 rid =
      some (applyTestResults b pid p t) ∧
    (applyTestResults b pid p t).total_tests = t ∧
    (p = t → (applyTestResults b pid p t).winner_id = some pid) := by
  rw [update_test_results_some s rid pid p t b hb]
  refine ⟨rfl, ?_, applyTestResults_total b pid p t, ?_⟩
  · simpa [get_battle_room] using getKey_setKey_self s.rooms rid _
  · intro h
    exact (applyTestResults_winner_of_pass b pid p t h).1

/-- C2 witness: the amended statement at the concrete completed room. -/
theorem C2_witness :
    (update_test_results completedRoomState "room_1" "bob" 5 5).1 = true ∧
    get_battle_room (update_test_results completedRoomState "room_1" "bob" 5 5).2
        "room_1" = some (applyTestResults completedRoom "bob" 5 5) ∧
    (applyTestResults completedRoom "bob" 5 5).total_tests = 5 ∧
    (5 = 5 → (applyTestResults completedRoom "bob" 5 5).winner_id = some "bob") :=
  C2_completed_room_still_mutates completedRoomState "room_1" "bob" 5 5
    completedRoom (by decide) (by decide)

/-- C5: the claim fails on the code.  A room just created by
`attempt_matchmaking`, before any submission, already has status
`"in_progress"`, never `"pending"`. -/
theorem C5_counterexample :
    ((attempt_matchmaking twoQueuedState "palindrome" "room_9" 20).1.map
      (fun b => b.status)) = some "in_progress" ∧
    "in_progress" ≠ "pending" := by decide

/-- C5 (amended): there is no `pending` state.  A room is created by
`attempt_matchmaking` directly in `in_progress` with a null winner and
zero counts, and it transitions to `completed` — recording the submitter
as winner — exactly when that submission's passed count equals its
reported total; otherwise status and winner are unchanged. -/
theorem C5_room_state_machine :
    (∀ (s : RedisState) (challenge rid : String) (now : Nat)
        (battle : BattleData) (s2 : RedisState),
      attempt_matchmaking s challenge rid now = (some battle, s2) →
      battle.status = "in_progress" ∧ battle.winner_id = none ∧
      battle.player1_tests = 0 ∧ battle.player2_tests = 0 ∧
      battle.total_tests = 0) ∧
    (∀ (s : RedisState) (rid pid : String) (p t : Nat) (b : BattleData),
      get_battle_room s rid = some b →
      get_battle_room (update_test_results s rid pid p t).2 rid =
        some (applyTestResults b pid p t)) ∧
    (∀ (b : BattleData) (pid : String) (p t : Nat),
      (p = t → (applyTestResults b pid p t).status = "completed" ∧
        (applyTestResults b pid p t).winner_id = some pid) ∧
      (p ≠ t → (applyTestResults b pid p t).status = b.status ∧
        (applyTestResults b pid p t).winner_id = b.winner_id)) := by
  refine ⟨?_, ?_, ?_⟩
  · intro s challenge rid now battle s2 h
    simp only [attempt_matchmaking] at h
    split at h
    · exact absurd (congrArg Prod.fst h) (by simp)
    · split at h
      · exact absurd (congrArg Prod.fst h) (by simp)
      · split at h
        · exact absurd (congrArg Prod.fst h) (by simp)
        · split at h
          · have hb := congrArg Prod.fst h
            simp only at hb
            cases hb
            exact ⟨rfl, rfl, rfl, rfl, rfl⟩
          · exact absurd (congrArg Prod.fst h) (by simp)
  · intro s rid pid p t b hb
    rw [update_test_results_some s rid pid p t b hb]
    simpa [get_battle_room] using getKey_setKey_self s.rooms rid _
  · intro b pid p t
    refine ⟨fun h => ?_, fun h => ?_⟩
    · have hw := applyTestResults_winner_of_pass b pid p t h
      exact ⟨hw.2, hw.1⟩
    · have hf := applyTestResults_frame_of_fail b pid p t h
      exact ⟨hf.2, hf.1⟩

/-- C5 witness: the first conjunct at the concrete two-player queue. -/
theorem C5_witness :
    demoBattle.status = "in_progress" ∧ demoBattle.winner_id = none ∧
    demoBattle.player1_tests = 0 ∧ demoBattle.player2_tests = 0 ∧
    demoBattle.total_tests = 0 :=
  C5_room_state_machine.1 twoQueuedState "palindrome" "room_9" 20 demoBattle
    demoAfterState (by decide)

/-- C9: the `disconnect` handler is frame-preserving on battles.  When
the socket maps to a user, the handler removes exactly that user's queue
membership (the queue entry and the `player:*` record) and the two
connection-handle entries; the battle rooms and the player-to-room
mapping — the data a reconnecting identity resumes from, kept under
their creation-time TTL — are untouched. -/
theorem C9_disconnect_preserves_rooms (s : ServerState)
    (sid user_id : String)
    (h : getKey s.socket_to_user sid = some user_id) :
    (disconnect s sid).redis.rooms = s.redis.rooms ∧
    (disconnect s sid).redis.playerRoom = s.redis.playerRoom ∧
    (disconnect s sid).redis.queue = zrem s.redis.queue user_id ∧
    user_id ∉ zrangeAll (disconnect s sid).redis.queue ∧
    (disconnect s sid).redis.players = delKey s.redis.players user_id ∧
    (disconnect s sid).connected_users = delKey s.connected_users user_id ∧
    (disconnect s sid).socket_to_user = delKey s.socket_to_user sid := by
  refine ⟨?_, ?_, ?_, ?_, ?_, ?_, ?_⟩ <;>
    simp [disconnect, h, remove_from_queue, not_mem_zrangeAll_zrem]

/-- C9 witness: alice disconnects mid-battle; her room survives. -/
theorem C9_witness :
    (disconnect connectedServerState "sock_a").redis.rooms =
      connectedServerState.redis.rooms ∧
    (disconnect connectedServerState "sock_a").redis.playerRoom =
      connectedServerState.redis.playerRoom ∧
    (disconnect connectedServerState "sock_a").redis.queue =
      zrem connectedServerState.redis.queue "alice" ∧
    "alice" ∉ zrangeAll (disconnect connectedServerState "sock_a").redis.queue ∧
    (disconnect connectedServerState "sock_a").redis.players =
      delKey connectedServerState.redis.players "alice" ∧
    (disconnect connectedServerState "sock_a").connected_users =
      delKey connectedServerState.connected_users "alice" ∧
    (disconnect connectedServerState "sock_a").socket_to_user =
      delKey connectedServerState.socket_to_user "sock_a" :=
  C9_disconnect_preserves_rooms connectedServerState "sock_a" "alice"
    (by decide)

/-- C10: the claim fails on the code.  Mallory, who is neither alice
(player1) nor bob (player2), submits a full pass: the room records
mallory — the submitter, not player2 bob — as `winner_id`. -/
theorem C10_counterexample :
    (get_battle_room (update_test_results progressRoomState "room_1"
        "mallory" 5 5).2 "room_1").map (fun b => b.winner_id) =
      some (some "mallory") ∧
    progressRoom.player2.user_id = "bob" ∧
    ("mallory" : String) ≠ "bob" := by decide

/-- C10 (amended): a submission by an identity that is neither
participant is not rejected: `update_test_results` reports success and
records the result as player2's count with the submitted total, and on a
full pass the room's `winner_id` becomes the outside submitter — while
the `battle_complete` notification announces player2 as the winner. -/
theorem C10_stranger_submission_lands_on_player2 (s : RedisState)
    (rid uid : String) (p t : Nat) (b : BattleData)
    (hb : get_battle_room s rid = some b)
    (h1 : uid ≠ b.player1.user_id)
    (h2 : uid ≠ b.player2.user_id) :
    (update_test_results s rid uid p t).1 = true ∧
    get_battle_room (update_test_results s rid uid p t).2 rid =
      some (applyTestResults b uid p t) ∧
    (applyTestResults b uid p t).player2_tests = p ∧
    (applyTestResults b uid p t).total_tests = t ∧
    (p = t → (applyTestResults b uid p t).winner_id = some uid) ∧
    submitWinner b uid = b.player2 := by
  rw [update_test_results_some s rid uid p t b hb]
  refine ⟨rfl, ?_, applyTestResults_player2_of_ne b uid p t h1,
    applyTestResults_total b uid p t, ?_, ?_⟩
  · simpa [get_battle_room] using getKey_setKey_self s.rooms rid _
  · intro h
    exact (applyTestResults_winner_of_pass b uid p t h).1
  · simp [submitWinner, h1]

/-- C10 witness: the amended statement at mallory's full pass. -/
theorem C10_witness :
    (update_test_results progressRoomState "room_1" "mallory" 5 5).1 = true ∧
    get_battle_room (update_test_results progressRoomState "room_1" "mallory"
        5 5).2 "room_1" = some (applyTestResults progressRoom "mallory" 5 5) ∧
    (applyTestResults progressRoom "mallory" 5 5).player2_tests = 5 ∧
    (applyTestResults progressRoom "mallory" 5 5).total_tests = 5 ∧
    (5 = 5 → (applyTestResults progressRoom "mallory" 5 5).winner_id =
      some "mallory") ∧
    submitWinner progressRoom "mallory" = progressRoom.player2 :=
  C10_stranger_submission_lands_on_player2 progressRoomState "room_1"
    "mallory" 5 5 progressRoom (by decide) (by decide) (by decide)

/-- C6: a timed-out execution is reported as a timeout failure with zero
passed tests and the declared total; the interrupted stdout is never
parsed, so no partial or garbled result can be produced. -/
theorem C6_timeout_reports_zero_passed (user_code : String)
    (test_cases : List TestCaseData) (class_name : String) (timeout : Nat)
    (hsafe : check_forbidden_imports_java user_code = true) :
    execute_java_code user_code test_cases class_name timeout
        JavaRun.timedOut =
      { success := false, passed_tests := 0,
        total_tests := test_cases.length,
        error := "Timeout: execution exceeded " ++ toString timeout ++ "s" } := by
  simp [execute_java_code, hsafe]

/-- C6 witness: a safe submission that exceeds the 5s timeout. -/
theorem C6_witness :
    execute_java_code "int x;" demoTestCases "TestRunner" 5
        JavaRun.timedOut =
      { success := false, passed_tests := 0,
        total_tests := demoTestCases.length,
        error := "Timeout: execution exceeded " ++ toString 5 ++ "s" } :=
  C6_timeout_reports_zero_passed "int x;" demoTestCases "TestRunner" 5
    (by decide)

/-- C7: for every submission the counts satisfy
`0 ≤ passed ≤ total` and `total` equals the number of test cases the
challenge declares; a validator rejection reports zero passed tests
against that same declared total. -/
theorem C7_counts_bounded_by_declared_total
    (parsed_code : Option (List PyStmt)) (ch : Challenge)
    (function_name : String) (run : SandboxRun)
    (runTest : TestCaseData → Bool) :
    (execute_code parsed_code (prepareTestCases ch) function_name run
        runTest).passed_tests ≤
      (execute_code parsed_code (prepareTestCases ch) function_name run
        runTest).total_tests ∧
    (execute_code parsed_code (prepareTestCases ch) function_name run
        runTest).total_tests = ch.test_cases.length ∧
    (check_forbidden_imports_ast parsed_code = false →
      (execute_code parsed_code (prepareTestCases ch) function_name run
        runTest).passed_tests = 0) := by
  have hlen : (prepareTestCases ch).length = ch.test_cases.length := by
    simp [prepareTestCases]
  refine ⟨?_, ?_, ?_⟩
  · unfold execute_code
    split
    · exact Nat.zero_le _
    · cases run
      · dsimp only
        calc ((prepareTestCases ch).map runTest).count true
            ≤ ((prepareTestCases ch).map runTest).length :=
              List.count_le_length _ _
          _ = (prepareTestCases ch).length := List.length_map _ _
      · exact Nat.zero_le _
      · exact Nat.zero_le _
  · unfold execute_code
    split
    · exact hlen
    · cases run <;> exact hlen
  · intro hfalse
    simp [execute_code, hfalse]

/-- C7 witness: the bounds at a concrete rejected submission. -/
theorem C7_witness :
    (execute_code (some importOsProgram) (prepareTestCases palindromeChallenge)
        "is_palindrome" SandboxRun.ran (fun _ => true)).passed_tests ≤
      (execute_code (some importOsProgram) (prepareTestCases palindromeChallenge)
        "is_palindrome" SandboxRun.ran (fun _ => true)).total_tests ∧
    (execute_code (some importOsProgram) (prepareTestCases palindromeChallenge)
        "is_palindrome" SandboxRun.ran (fun _ => true)).total_tests =
      palindromeChallenge.test_cases.length ∧
    (check_forbidden_imports_ast (some importOsProgram) = false →
      (execute_code (some importOsProgram) (prepareTestCases palindromeChallenge)
        "is_palindrome" SandboxRun.ran (fun _ => true)).passed_tests = 0) :=
  C7_counts_bounded_by_declared_total (some importOsProgram)
    palindromeChallenge "is_palindrome" SandboxRun.ran (fun _ => true)

/-- C4: the code contradicts its documented behaviour.  The validator
rejects a direct `import os`, an aliased `import os as o` and a dynamic
`__import__('os')` — but it accepts the reflective attribute lookup
`getattr(__builtins__, '__import__')('os')`, because the call branch
only inspects `node.func` when it is a plain name or an attribute
access, and `getattr` is in neither deny tuple. -/
theorem C4_reflective_lookup_accepted :
    check_forbidden_imports_ast (some getattrImportProgram) = true ∧
    check_forbidden_imports_ast (some importOsProgram) = false ∧
    check_forbidden_imports_ast (some importOsAliasedProgram) = false ∧
    check_forbidden_imports_ast (some dunderImportProgram) = false := by
  decide

theorem update_player_code_none (r : RedisState) (rid uid c : String)
    (h : get_battle_room r rid = none) :
    update_player_code r rid uid c = r := by
  simp [update_player_code, h]

theorem update_player_code_some (r : RedisState) (rid uid c : String)
    (b : BattleData) (h : get_battle_room r rid = some b) :
    update_player_code r rid uid c =
      { r with rooms := setKey r.rooms rid (setSubmitterCode b uid c) } := by
  simp [update_player_code, h]

theorem setSubmitterCode_idem (b : BattleData) (uid c : String) :
    setSubmitterCode (setSubmitterCode b uid c) uid c =
      setSubmitterCode b uid c := by
  by_cases h : (uid == b.player1.user_id) = true <;>
    simp [setSubmitterCode, h]

theorem update_player_code_idem (r : RedisState) (rid uid c : String) :
    update_player_code (update_player_code r rid uid c) rid uid c =
      update_player_code r rid uid c := by
  cases hb : get_battle_room r rid with
  | none =>
    rw [update_player_code_none r rid uid c hb,
      update_player_code_none r rid uid c hb]
  | some b =>
    rw [update_player_code_some r rid uid c b hb]
    have h2 : get_battle_room
        { r with rooms := setKey r.rooms rid (setSubmitterCode b uid c) }
          rid = some (setSubmitterCode b uid c) := by
      simpa [get_battle_room] using getKey_setKey_self r.rooms rid _
    rw [update_player_code_some _ rid uid c _ h2]
    rw [setSubmitterCode_idem, setKey_setKey]

theorem sync_code_effective (s : ServerState) (uid rid c : String) (ts : Int)
    (b : BattleData) (hroom : get_battle_room s.redis rid = some b)
    (h : ¬ (ts > 0 ∧
      ts - (getKey s.last_sync (rid ++ ":" ++ uid)).getD 0 < 200)) :
    sync_code s uid rid c ts =
      ({ s with last_sync := setKey s.last_sync (rid ++ ":" ++ uid) ts,
                redis := update_player_code s.redis rid uid c },
       some { code := c, user_id := uid, timestamp := ts }) := by
  simp only [sync_code, hroom]
  rw [if_neg h]

theorem sync_code_deduped (s : ServerState) (uid rid c : String) (ts : Int)
    (b : BattleData) (hroom : get_battle_room s.redis rid = some b)
    (h : ts > 0 ∧
      ts - (getKey s.last_sync (rid ++ ":" ++ uid)).getD 0 < 200) :
    sync_code s uid rid c ts = (s, none) := by
  simp only [sync_code, hroom]
  rw [if_pos h]

theorem sync_code_again_no_effect (s1 : ServerState) (uid rid c : String)
    (ts2 : Int) (b1 : BattleData)
    (hroom1 : get_battle_room s1.redis rid = some b1)
    (hidem : update_player_code s1.redis rid uid c = s1.redis) :
    (sync_code s1 uid rid c ts2).1.redis = s1.redis ∧
    ((sync_code s1 uid rid c ts2).2.map (fun u => u.code) = none ∨
     (sync_code s1 uid rid c ts2).2.map (fun u => u.code) = some c) := by
  by_cases hd : ts2 > 0 ∧
      ts2 - (getKey s1.last_sync (rid ++ ":" ++ uid)).getD 0 < 200
  · rw [sync_code_deduped s1 uid rid c ts2 b1 hroom1 hd]
    exact ⟨rfl, Or.inl rfl⟩
  · rw [sync_code_effective s1 uid rid c ts2 b1 hroom1 hd]
    exact ⟨hidem, Or.inr rfl⟩

/-- C8: `sync_code` is idempotent in its observables.  Re-sending the
identical code (the first send being effective) leaves the stored
queue/room state exactly as after the first send, the first send shows
the code to the opponent, and the second send either broadcasts nothing
(deduplicated inside 200 ms) or broadcasts the same code again — the
peer-facing code is a function of the latest code, not of the number of
sync events. -/
theorem C8_sync_code_idempotent (s : ServerState)
    (user_id room_id code : String) (ts1 ts2 : Int) (b : BattleData)
    (hroom : get_battle_room s.redis room_id = some b)
    (hfirst : ¬ (ts1 > 0 ∧
      ts1 - (getKey s.last_sync (room_id ++ ":" ++ user_id)).getD 0 < 200)) :
    (sync_code (sync_code s user_id room_id code ts1).1 user_id room_id code
        ts2).1.redis = (sync_code s user_id room_id code ts1).1.redis ∧
    (sync_code s user_id room_id code ts1).2.map (fun u => u.code) =
      some code ∧
    ((sync_code (sync_code s user_id room_id code ts1).1 user_id room_id
        code ts2).2.map (fun u => u.code) = none ∨
     (sync_code (sync_code s user_id room_id code ts1).1 user_id room_id
        code ts2).2.map (fun u => u.code) = some code) := by
  rw [sync_code_effective s user_id room_id code ts1 b hroom hfirst]
  have hroom1 : get_battle_room
      (update_player_code s.redis room_id user_id code) room_id =
      some (setSubmitterCode b user_id code) := by
    rw [update_player_code_some s.redis room_id user_id code b hroom]
    simpa [get_battle_room] using
      getKey_setKey_self s.redis.rooms room_id _
  have haux := sync_code_again_no_effect
    ({ s with
        last_sync := setKey s.last_sync (room_id ++ ":" ++ user_id) ts1,
        redis := update_player_code s.redis room_id user_id code })
    user_id room_id code ts2 (setSubmitterCode b user_id code)
    hroom1 (update_player_code_idem s.redis room_id user_id code)
  exact ⟨haux.1, rfl, haux.2⟩

/-- C8 witness: two identical syncs 100 ms apart in the concrete room. -/
theorem C8_witness :
    (sync_code (sync_code syncServerState "alice" "room_1" "x = 1" 1000).1
        "alice" "room_1" "x = 1" 1100).1.redis =
      (sync_code syncServerState "alice" "room_1" "x = 1" 1000).1.redis ∧
    (sync_code syncServerState "alice" "room_1" "x = 1" 1000).2.map
        (fun u => u.code) = some "x = 1" ∧
    ((sync_code (sync_code syncServerState "alice" "room_1" "x = 1" 1000).1
        "alice" "room_1" "x = 1" 1100).2.map (fun u => u.code) = none ∨
     (sync_code (sync_code syncServerState "alice" "room_1" "x = 1" 1000).1
        "alice" "room_1" "x = 1" 1100).2.map (fun u => u.code) =
       some "x = 1") :=
  C8_sync_code_idempotent syncServerState "alice" "room_1" "x = 1" 1000 1100
    progressRoom (by decide) (by decide)

theorem AccInv_nil (ps : List (String × Player)) (pid : String) (e : Int)
    (tol : Nat) : AccInv ps pid e tol [] (none, none) := by
  simp only [AccInv]
  intro c d hc
  exact absurd hc (List.not_mem_nil c)

theorem AccInv_append_invalid (ps : List (String × Player)) (pid : String)
    (e : Int) (tol : Nat) (processed : List String)
    (acc : Option String × Option Nat) (c : String)
    (hinv : AccInv ps pid e tol processed acc)
    (hc : ∀ d, ¬ ValidCand ps pid e tol c d) :
    AccInv ps pid e tol (processed ++ [c]) acc := by
  rcases acc with ⟨ob, od⟩
  match ob, od with
  | none, none =>
    simp only [AccInv] at hinv ⊢
    intro x dx hx
    rcases List.mem_append.mp hx with h | h
    · exact hinv x dx h
    · simp only [List.mem_singleton] at h
      subst h
      exact hc dx
  | some b, some d =>
    simp only [AccInv] at hinv ⊢
    obtain ⟨hb, hmin, pre, post, heq, hpre⟩ := hinv
    refine ⟨hb, ?_, pre, post ++ [c], ?_, hpre⟩
    · intro x dx hx hv
      rcases List.mem_append.mp hx with h | h
      · exact hmin x dx h hv
      · simp only [List.mem_singleton] at h
        subst h
        exact absurd hv (hc dx)
    · rw [heq]
      simp
  | none, some d => simp only [AccInv] at hinv
  | some b, none => simp only [AccInv] at hinv

theorem AccInv_append_newbest (ps : List (String × Player)) (pid : String)
    (e : Int) (tol : Nat) (processed : List String)
    (c : String) (d : Nat)
    (hvc : ValidCand ps pid e tol c d)
    (hlt : ∀ x dx, x ∈ processed → ValidCand ps pid e tol x dx → d < dx) :
    AccInv ps pid e tol (processed ++ [c]) (some c, some d) := by
  simp only [AccInv]
  refine ⟨hvc, ?_, processed, [], rfl, hlt⟩
  intro x dx hx hv
  rcases List.mem_append.mp hx with h | h
  · exact le_of_lt (hlt x dx h hv)
  · simp only [List.mem_singleton] at h
    subst h
    have hdd : dx = d := Option.some.inj (hv.2.1.symm.trans hvc.2.1)
    omega

theorem AccInv_append_notcloser (ps : List (String × Player)) (pid : String)
    (e : Int) (tol : Nat) (processed : List String) (b : String) (d : Nat)
    (c : String) (d0 : Nat)
    (hinv : AccInv ps pid e tol processed (some b, some d))
    (hd : d ≤ d0) (hcd : candDiff ps e c = some d0) :
    AccInv ps pid e tol (processed ++ [c]) (some b, some d) := by
  simp only [AccInv] at hinv ⊢
  obtain ⟨hb, hmin, pre, post, heq, hpre⟩ := hinv
  refine ⟨hb, ?_, pre, post ++ [c], ?_, hpre⟩
  · intro x dx hx hv
    rcases List.mem_append.mp hx with h | h
    · exact hmin x dx h hv
    · simp only [List.mem_singleton] at h
      subst h
      have hdd : dx = d0 := Option.some.inj (hv.2.1.symm.trans hcd)
      omega
  · rw [heq]
    simp

theorem fbmStep_preserves_inv (ps : List (String × Player)) (pid : String)
    (e : Int) (tol : Nat) (processed : List String)
    (acc : Option String × Option Nat) (c : String)
    (hinv : AccInv ps pid e tol processed acc) :
    AccInv ps pid e tol (processed ++ [c]) (fbmStep ps pid e tol acc c) := by
  by_cases hcp : c = pid
  · have hstep : fbmStep ps pid e tol acc c = acc := by
      simp [fbmStep, hcp]
    rw [hstep]
    refine AccInv_append_invalid ps pid e tol processed acc c hinv ?_
    intro d hv
    exact hv.1 hcp
  · cases hk : getKey ps c with
    | none =>
      have hstep : fbmStep ps pid e tol acc c = acc := by
        simp [fbmStep, hcp, hk]
      rw [hstep]
      refine AccInv_append_invalid ps pid e tol processed acc c hinv ?_
      intro d hv
      have hcd := hv.2.1
      rw [candDiff, hk] at hcd
      simp at hcd
    | some cand =>
      rcases acc with ⟨ob, od⟩
      match ob, od with
      | none, none =>
        by_cases htol : eloDiff e cand.elo_rating ≤ tol
        · have hstep : fbmStep ps pid e tol (none, none) c =
              (some c, some (eloDiff e cand.elo_rating)) := by
            simp [fbmStep, hcp, hk, htol]
          rw [hstep]
          refine AccInv_append_newbest ps pid e tol processed c _ ?_ ?_
          · exact ⟨hcp, by simp [candDiff, hk], htol⟩
          · intro x dx hx hv
            simp only [AccInv] at hinv
            exact absurd hv (hinv x dx hx)
        · have hstep : fbmStep ps pid e tol (none, none) c = (none, none) := by
            simp [fbmStep, hcp, hk, htol]
          rw [hstep]
          refine AccInv_append_invalid ps pid e tol processed _ c hinv ?_
          intro d' hv
          have hdd : d' = eloDiff e cand.elo_rating :=
            Option.some.inj (hv.2.1.symm.trans (by simp [candDiff, hk]))
          exact htol (hdd ▸ hv.2.2)
      | some b, some d =>
        by_cases hcl : eloDiff e cand.elo_rating < d
        · by_cases htol : eloDiff e cand.elo_rating ≤ tol
          · have hstep : fbmStep ps pid e tol (some b, some d) c =
                (some c, some (eloDiff e cand.elo_rating)) := by
              simp [fbmStep, hcp, hk, hcl, htol]
            rw [hstep]
            refine AccInv_append_newbest ps pid e tol processed c _ ?_ ?_
            · exact ⟨hcp, by simp [candDiff, hk], htol⟩
            · intro x dx hx hv
              simp only [AccInv] at hinv
              have hle := hinv.2.1 x dx hx hv
              omega
          · have hstep : fbmStep ps pid e tol (some b, some d) c =
                (some b, some d) := by
              simp [fbmStep, hcp, hk, htol]
            rw [hstep]
            refine AccInv_append_invalid ps pid e tol processed _ c hinv ?_
            intro d' hv
            have hdd : d' = eloDiff e cand.elo_rating :=
              Option.some.inj (hv.2.1.symm.trans (by simp [candDiff, hk]))
            exact htol (hdd ▸ hv.2.2)
        · have hstep : fbmStep ps pid e tol (some b, some d) c =
              (some b, some d) := by
            simp [fbmStep, hcp, hk, hcl]
          rw [hstep]
          exact AccInv_append_notcloser ps pid e tol processed b d c
            (eloDiff e cand.elo_rating) hinv (by omega)
            (by simp [candDiff, hk])
      | none, some d => simp only [AccInv] at hinv
      | some b, none => simp only [AccInv] at hinv

theorem fbm_foldl_inv (ps : List (String × Player)) (pid : String) (e : Int)
    (tol : Nat) :
    ∀ (ids processed : List String) (acc : Option String × Option Nat),
      AccInv ps pid e tol processed acc →
      AccInv ps pid e tol (processed ++ ids)
        (ids.foldl (fbmStep ps pid e tol) acc) := by
  intro ids
  induction ids with
  | nil =>
    intro processed acc h
    simpa using h
  | cons c cs ih =>
    intro processed acc h
    have h1 := fbmStep_preserves_inv ps pid e tol processed acc c h
    have h2 := ih (processed ++ [c]) (fbmStep ps pid e tol acc c) h1
    simpa [List.append_assoc] using h2

theorem find_best_match_spec_some (s : RedisState) (pid : String)
    (player : Player) (b : String)
    (hp : getKey s.players pid = some player)
    (hb : find_best_match s pid = some b) :
    IsBestMatch s pid player.elo_rating 200 b := by
  have hfold := fbm_foldl_inv s.players pid player.elo_rating 200
    (zrangeAll s.queue) [] (none, none)
    (AccInv_nil s.players pid player.elo_rating 200)
  simp only [List.nil_append] at hfold
  simp only [find_best_match, hp] at hb
  rcases hres : (zrangeAll s.queue).foldl
      (fbmStep s.players pid player.elo_rating 200) (none, none) with ⟨ob, od⟩
  rw [hres] at hfold hb
  simp only at hb
  subst hb
  cases od with
  | none => simp only [AccInv] at hfold
  | some d =>
    simp only [AccInv] at hfold
    obtain ⟨hvb, hmin, pre, post, heq, hpre⟩ := hfold
    exact ⟨d, hvb, hmin, pre, post, heq, hpre⟩

theorem find_best_match_spec_none (s : RedisState) (pid : String)
    (player : Player)
    (hp : getKey s.players pid = some player)
    (hb : find_best_match s pid = none) :
    NoMatchWithin s pid player.elo_rating 200 := by
  have hfold := fbm_foldl_inv s.players pid player.elo_rating 200
    (zrangeAll s.queue) [] (none, none)
    (AccInv_nil s.players pid player.elo_rating 200)
  simp only [List.nil_append] at hfold
  simp only [find_best_match, hp] at hb
  rcases hres : (zrangeAll s.queue).foldl
      (fbmStep s.players pid player.elo_rating 200) (none, none) with ⟨ob, od⟩
  rw [hres] at hfold hb
  simp only at hb
  subst hb
  cases od with
  | none =>
    simp only [AccInv] at hfold
    intro c d hc
    exact hfold c d hc
  | some d => simp only [AccInv] at hfold

theorem attempt_matchmaking_match (s : RedisState) (challenge rid : String)
    (now : Nat) (hid bid : String) (p1 p2 : Player)
    (hsize : 2 ≤ get_queue_size s)
    (hhead : (zrangeAll s.queue).head? = some hid)
    (hfind : find_best_match s hid = some bid)
    (hp1 : getKey s.players hid = some p1)
    (hp2 : getKey s.players bid = some p2) :
    attempt_matchmaking s challenge rid now =
      (some { room_id := rid, player1 := p1, player2 := p2,
              challenge_id := challenge, status := "in_progress",
              created_at := now, player1_code := "", player2_code := "",
              player1_tests := 0, player2_tests := 0, total_tests := 0,
              winner_id := none },
       { s with
          queue := zrem (zrem s.queue hid) bid,
          rooms := setKey s.rooms rid
            { room_id := rid, player1 := p1, player2 := p2,
              challenge_id := challenge, status := "in_progress",
              created_at := now, player1_code := "", player2_code := "",
              player1_tests := 0, player2_tests := 0, total_tests := 0,
              winner_id := none },
          playerRoom := setKey (setKey s.playerRoom hid rid) bid rid }) := by
  simp only [attempt_matchmaking, hhead, hfind, hp1, hp2]
  rw [if_neg (show ¬ get_queue_size s < 2 by omega)]

theorem attempt_matchmaking_nomatch (s : RedisState) (challenge rid : String)
    (now : Nat) (hid : String)
    (hhead : (zrangeAll s.queue).head? = some hid)
    (hfind : find_best_match s hid = none) :
    attempt_matchmaking s challenge rid now = (none, s) := by
  simp only [attempt_matchmaking, hhead, hfind]
  split <;> rfl

/-- C3: `attempt_matchmaking` pairs the longest-waiting queued id (the
`ZRANGE` head) with the queued candidate whose rating difference to the
head is within the tolerance 200 and minimal, the earliest-queued of
equally close candidates winning (`IsBestMatch`); with no candidate
within tolerance nothing is matched and the state — the head included —
is unchanged.  In Scenario A (ratings 1000, 1100, 1500 queued in that
order) the 1000 and 1100 players are paired and the 1500 player stays
queued, matched with neither. -/
theorem C3_try_match_pairs_head_with_closest :
    (∀ (s : RedisState) (pid : String) (player : Player) (b : String),
      getKey s.players pid = some player →
      find_best_match s pid = some b →
      IsBestMatch s pid player.elo_rating 200 b) ∧
    (∀ (s : RedisState) (pid : String) (player : Player),
      getKey s.players pid = some player →
      find_best_match s pid = none →
      NoMatchWithin s pid player.elo_rating 200) ∧
    (∀ (s : RedisState) (challenge rid : String) (now : Nat)
        (hid bid : String) (p1 p2 : Player),
      2 ≤ get_queue_size s →
      (zrangeAll s.queue).head? = some hid →
      find_best_match s hid = some bid →
      getKey s.players hid = some p1 →
      getKey s.players bid = some p2 →
      attempt_matchmaking s challenge rid now =
        (some { room_id := rid, player1 := p1, player2 := p2,
                challenge_id := challenge, status := "in_progress",
                created_at := now, player1_code := "", player2_code := "",
                player1_tests := 0, player2_tests := 0, total_tests := 0,
                winner_id := none },
         { s with
            queue := zrem (zrem s.queue hid) bid,
            rooms := setKey s.rooms rid
              { room_id := rid, player1 := p1, player2 := p2,
                challenge_id := challenge, status := "in_progress",
                created_at := now, player1_code := "", player2_code := "",
                player1_tests := 0, player2_tests := 0, total_tests := 0,
                winner_id := none },
            playerRoom := setKey (setKey s.playerRoom hid rid) bid rid })) ∧
    (∀ (s : RedisState) (challenge rid : String) (now : Nat) (hid : String),
      (zrangeAll s.queue).head? = some hid →
      find_best_match s hid = none →
      attempt_matchmaking s challenge rid now = (none, s)) ∧
    ((attempt_matchmaking threeQueuedState "palindrome" "room_1" 30).1.map
        (fun b => (b.player1.user_id, b.player2.user_id)) =
      some ("alice", "bob") ∧
     zrangeAll (attempt_matchmaking threeQueuedState "palindrome"
        "room_1" 30).2.queue = ["carol"]) := by
  refine ⟨find_best_match_spec_some, find_best_match_spec_none, ?_, ?_, ?_⟩
  · intro s challenge rid now hid bid p1 p2 hsize hhead hfind hp1 hp2
    exact attempt_matchmaking_match s challenge rid now hid bid p1 p2
      hsize hhead hfind hp1 hp2
  · intro s challenge rid now hid hhead hfind
    exact attempt_matchmaking_nomatch s challenge rid now hid hhead hfind
  · exact ⟨by decide, by decide⟩

/-- C3 witness: in Scenario A the search for alice (rating 1000) returns
bob (rating 1100, difference 100 ≤ 200) as the provably best match. -/
theorem C3_witness :
    IsBestMatch threeQueuedState "alice" alicePlayer.elo_rating 200 "bob" :=
  C3_try_match_pairs_head_with_closest.1 threeQueuedState "alice"
    alicePlayer "bob" (by decide) (by decide)
